import Mathlib

/-!
Shallow embedding of the expense-tracking app's persistence layer
(`DatabaseService` over a single SQLite table `expenses`), together with
theorems checking the natural-language specification against it.

Modelling conventions:
* A table row always carries an `id` (SQLite `INTEGER PRIMARY KEY`) and,
  for rows written by this service, a `created_at` set from the column
  default `datetime('now')`; `created_at` is kept `Option` because the
  column itself is nullable.
* `amount REAL` is modelled with exact rationals `ℚ`. Storing and
  retrieving a double is exact, so round-trip properties are unaffected;
  but the program's `SUM(amount)` rounds in IEEE-754 binary64 (with an
  accumulation algorithm that depends on the bundled SQLite version), so
  properties that hinge on the arithmetic of sums are not settled against
  the exact-arithmetic `getExpenseStats` below.
* The SQLite `AUTOINCREMENT` sequence is the `seq` field of `DBState`:
  `DELETE FROM expenses` keeps it, `DROP TABLE` discards it.
* The current wall-clock time (`datetime('now')`) is passed in as the
  `now` argument of `addExpense`.
* Each operation returns `Except DBError α × Service`: the thrown
  `Error('Database not initialized')` becomes `.error .notInitialized`,
  and the (possibly unchanged) service state is returned alongside.
-/

namespace ExpenseTracker

/-- The `Expense` row shape as stored in the `expenses` table: `id` is the
integer primary key, `description` is written as `expense.description || ''`
by every write path of the service, `created_at` is the nullable
`DATETIME DEFAULT (datetime('now'))` column. -/
structure Expense where
  id : Nat
  title : String
  amount : ℚ
  category : String
  date : String
  description : String
  created_at : Option String
deriving Repr, DecidableEq

/-- The caller-supplied part of an expense, `Omit<Expense, 'id' | 'created_at'>`:
`description` is the optional field of the TypeScript interface. -/
structure ExpenseInput where
  title : String
  amount : ℚ
  category : String
  date : String
  description : Option String
deriving Repr, DecidableEq

/-- The `ExpenseStats` result of `getExpenseStats`; `categorySums` is the
per-category object represented as an association list over the distinct
categories, `monthlyData` the `{month, total}` rows. -/
structure ExpenseStats where
  totalExpenses : ℚ
  categorySums : List (String × ℚ)
  monthlyData : List (String × ℚ)
deriving Repr, DecidableEq

/-- The only error the service raises by itself: `Error('Database not
initialized')` when `this.db` is still `null`. -/
inductive DBError where
  | notInitialized
deriving Repr, DecidableEq

/-- State of the open SQLite database: the rows of `expenses` in rowid
(insertion) order, and the `AUTOINCREMENT` sequence value for the table
(the largest id ever handed out since the table was created). -/
structure DBState where
  rows : List Expense
  seq : Nat
deriving Repr, DecidableEq

/-- The `DatabaseService` object: `db` is `null` (`none`) until
`initializeDatabase` has run. -/
structure Service where
  db : Option DBState
deriving Repr, DecidableEq

instance {ε α : Type} [DecidableEq ε] [DecidableEq α] :
    DecidableEq (Except ε α) := fun x y =>
  match x, y with
  | .ok a, .ok b =>
      if h : a = b then isTrue (by rw [h])
      else isFalse (fun hh => h (Except.ok.inj hh))
  | .ok _, .error _ => isFalse (fun hh => Except.noConfusion hh)
  | .error _, .ok _ => isFalse (fun hh => Except.noConfusion hh)
  | .error e, .error f =>
      if h : e = f then isTrue (by rw [h])
      else isFalse (fun hh => h (Except.error.inj hh))

/-- Ordering `ORDER BY date DESC, id DESC`: `a` may come before `b`. SQLite compares
the TEXT `date` column bytewise, which on UTF-8 agrees with `String`'s
lexicographic order. -/
def dateIdDesc (a b : Expense) : Prop :=
  b.date < a.date ∨ (b.date = a.date ∧ b.id ≤ a.id)

/-- Ordering `ORDER BY date DESC` alone (used by search and date-range queries). -/
def dateDesc (a b : Expense) : Prop :=
  b.date ≤ a.date

instance : DecidableRel dateIdDesc := fun a b => by
  unfold dateIdDesc; infer_instance

instance : DecidableRel dateDesc := fun a b => by
  unfold dateDesc; infer_instance

instance : IsTotal Expense dateIdDesc where
  total a b := by
    unfold dateIdDesc
    rcases lt_trichotomy a.date b.date with h | h | h
    · exact Or.inr (Or.inl h)
    · rcases Nat.le_total b.id a.id with hid | hid
      · exact Or.inl (Or.inr ⟨h.symm, hid⟩)
      · exact Or.inr (Or.inr ⟨h, hid⟩)
    · exact Or.inl (Or.inl h)

instance : IsTrans Expense dateIdDesc where
  trans a b c hab hbc := by
    unfold dateIdDesc at *
    rcases hab with h1 | ⟨h1, h1'⟩ <;> rcases hbc with h2 | ⟨h2, h2'⟩
    · exact Or.inl (lt_trans h2 h1)
    · exact Or.inl (lt_of_eq_of_lt h2 h1)
    · exact Or.inl (lt_of_lt_of_eq h2 h1)
    · exact Or.inr ⟨h2.trans h1, le_trans h2' h1'⟩

instance : IsTotal Expense dateDesc where
  total a b := le_total b.date a.date

instance : IsTrans Expense dateDesc where
  trans _ _ _ hab hbc := le_trans hbc hab

/-- Operation `initializeDatabase`: opens `expenses.db` and runs
`CREATE TABLE IF NOT EXISTS expenses (...)`. On a fresh installation this
yields an empty table with a fresh autoincrement sequence; if the handle is
already open the existing table is kept. -/
def initializeDatabase (s : Service) : Service :=
  match s.db with
  | some d => ⟨some d⟩
  | none => ⟨some ⟨[], 0⟩⟩

/-- Operation `addExpense`: `INSERT INTO expenses (title, amount, category, date,
description) VALUES (?,?,?,?,?)` with `expense.description || ''`; the row
gets the next autoincrement id and `created_at` from the column default
`datetime('now')`; returns `result.lastInsertRowId`. -/
def addExpense (s : Service) (e : ExpenseInput) (now : String) :
    Except DBError Nat × Service :=
  match s.db with
  | none => (.error .notInitialized, s)
  | some d =>
      (.ok (d.seq + 1),
       ⟨some ⟨d.rows ++ [⟨d.seq + 1, e.title, e.amount, e.category, e.date,
                          e.description.getD "", some now⟩],
              d.seq + 1⟩⟩)

/-- Operation `getAllExpenses`: `SELECT * FROM expenses ORDER BY date DESC, id DESC`. -/
def getAllExpenses (s : Service) : Except DBError (List Expense) × Service :=
  match s.db with
  | none => (.error .notInitialized, s)
  | some d => (.ok (List.insertionSort dateIdDesc d.rows), s)

/-- Operation `getExpenseById`: `getFirstAsync('SELECT * FROM expenses WHERE id = ?')`,
yielding the row or `null`. -/
def getExpenseById (s : Service) (id : Nat) :
    Except DBError (Option Expense) × Service :=
  match s.db with
  | none => (.error .notInitialized, s)
  | some d => (.ok (d.rows.find? (fun r => r.id == id)), s)

/-- The effect of `UPDATE expenses SET title = ?, amount = ?, category = ?,
date = ?, description = ? WHERE id = ?` on one row (`description || ''`). -/
def applyUpdate (id : Nat) (e : ExpenseInput) (r : Expense) : Expense :=
  if r.id == id then
    ⟨r.id, e.title, e.amount, e.category, e.date, e.description.getD "",
     r.created_at⟩
  else r

/-- Operation `updateExpense`: runs the `UPDATE ... WHERE id = ?` statement; rows
whose id does not match are untouched, and a missing id updates nothing. -/
def updateExpense (s : Service) (id : Nat) (e : ExpenseInput) :
    Except DBError Unit × Service :=
  match s.db with
  | none => (.error .notInitialized, s)
  | some d => (.ok (), ⟨some ⟨d.rows.map (applyUpdate id e), d.seq⟩⟩)

/-- Operation `deleteExpense`: `DELETE FROM expenses WHERE id = ?` (no error when the
id is absent; the autoincrement sequence is unaffected). -/
def deleteExpense (s : Service) (id : Nat) : Except DBError Unit × Service :=
  match s.db with
  | none => (.error .notInitialized, s)
  | some d => (.ok (), ⟨some ⟨d.rows.filter (fun r => !(r.id == id)), d.seq⟩⟩)

/-- SQLite `LIKE` pattern matching over characters: `%` matches any run of
characters, `_` any single character, and other characters compare after
ASCII case folding (SQLite's `LIKE` is case-insensitive for ASCII only;
`Char.toLower` likewise folds only `A`–`Z`). -/
def likeMatch : List Char → List Char → Bool
  | [], s => s.isEmpty
  | p :: ps, s =>
      if p = '%' then s.tails.any (fun t => likeMatch ps t)
      else
        match s with
        | [] => false
        | c :: s' =>
            if p = '_' then likeMatch ps s'
            else p.toLower == c.toLower && likeMatch ps s'

/-- The pattern `` `%${query}%` `` bound to a `LIKE` parameter. -/
def likeMatches (q s : String) : Bool :=
  likeMatch ('%' :: (q.data ++ ['%'])) s.data

/-- The `WHERE title LIKE ? OR description LIKE ? OR category LIKE ?`
row predicate of `searchExpenses`. -/
def rowMatches (q : String) (r : Expense) : Bool :=
  likeMatches q r.title || likeMatches q r.description || likeMatches q r.category

/-- Operation `searchExpenses`: `SELECT * FROM expenses WHERE title LIKE ? OR
description LIKE ? OR category LIKE ? ORDER BY date DESC` with the pattern
`` `%${query}%` `` for all three columns. -/
def searchExpenses (s : Service) (q : String) :
    Except DBError (List Expense) × Service :=
  match s.db with
  | none => (.error .notInitialized, s)
  | some d =>
      (.ok (List.insertionSort dateDesc (d.rows.filter (rowMatches q))), s)

/-- Aggregate `SUM(amount)` over the rows of one category (`GROUP BY category`). -/
def catSum (rows : List Expense) (c : String) : ℚ :=
  ((rows.filter (fun r => r.category == c)).map (fun r => r.amount)).sum

/-- The distinct categories present in the table. -/
def categories (rows : List Expense) : List String :=
  (rows.map (fun r => r.category)).dedup

/-- Ordering `ORDER BY total DESC` over `(category, total)` (resp. `(month, total)`)
group rows: descending second component. -/
def totalDesc (a b : String × ℚ) : Prop := b.2 ≤ a.2

instance : DecidableRel totalDesc := fun a b => by
  unfold totalDesc; infer_instance

instance : IsTotal (String × ℚ) totalDesc where
  total a b := le_total b.2 a.2

instance : IsTrans (String × ℚ) totalDesc where
  trans _ _ _ hab hbc := le_trans hbc hab

/-- Ordering `ORDER BY month DESC`: descending first component (TEXT comparison). -/
def monthDesc (a b : String × ℚ) : Prop := b.1 ≤ a.1

instance : DecidableRel monthDesc := fun a b => by
  unfold monthDesc; infer_instance

instance : IsTotal (String × ℚ) monthDesc where
  total a b := le_total b.1 a.1

instance : IsTrans (String × ℚ) monthDesc where
  trans _ _ _ hab hbc := le_trans hbc hab

/-- Month key `strftime('%Y-%m', date)` on the zero-padded ISO `YYYY-MM-DD` strings
the app stores: the first seven characters. -/
def monthKey (date : String) : String := ⟨date.data.take 7⟩

/-- Aggregate `SUM(amount)` over the rows of one `strftime('%Y-%m', date)` month. -/
def monthSum (rows : List Expense) (m : String) : ℚ :=
  ((rows.filter (fun r => monthKey r.date == m)).map (fun r => r.amount)).sum

/-- Operation `getExpenseStats`: total `SUM(amount)` (`total || 0`, so `0` on the
empty table where `SUM` yields `NULL`), per-category sums ordered by total
descending, and per-month sums ordered by month descending limited to 12.
Arithmetic idealization: the sums here are exact over `ℚ`, whereas the
program sums IEEE-754 doubles inside the storage engine; only the
non-arithmetic shape of this operation (its guard and its state frame) is
used by the theorems below. -/
def getExpenseStats (s : Service) : Except DBError ExpenseStats × Service :=
  match s.db with
  | none => (.error .notInitialized, s)
  | some d =>
      (.ok
        { totalExpenses := (d.rows.map (fun r => r.amount)).sum
          categorySums :=
            List.insertionSort totalDesc
              ((categories d.rows).map (fun c => (c, catSum d.rows c)))
          monthlyData :=
            (List.insertionSort monthDesc
              (((d.rows.map (fun r => monthKey r.date)).dedup).map
                (fun m => (m, monthSum d.rows m)))).take 12 },
       s)

/-- Operation `clearAllData`: `DELETE FROM expenses` — rows are gone but the
`AUTOINCREMENT` sequence in `sqlite_sequence` survives. -/
def clearAllData (s : Service) : Except DBError Unit × Service :=
  match s.db with
  | none => (.error .notInitialized, s)
  | some d => (.ok (), ⟨some ⟨[], d.seq⟩⟩)

/-- Operation `resetDatabase`: `DROP TABLE IF EXISTS expenses` followed by
`CREATE TABLE expenses (...)` — dropping the table also drops its
`sqlite_sequence` entry, so the id sequence starts over. -/
def resetDatabase (s : Service) : Except DBError Unit × Service :=
  match s.db with
  | none => (.error .notInitialized, s)
  | some _ => (.ok (), ⟨some ⟨[], 0⟩⟩)

/-- Operation `getExpensesByDateRange`: `SELECT * FROM expenses WHERE date BETWEEN ?
AND ? ORDER BY date DESC` (`BETWEEN` is inclusive TEXT comparison). -/
def getExpensesByDateRange (s : Service) (startDate endDate : String) :
    Except DBError (List Expense) × Service :=
  match s.db with
  | none => (.error .notInitialized, s)
  | some d =>
      (.ok (List.insertionSort dateDesc
        (d.rows.filter (fun r => decide (startDate ≤ r.date ∧ r.date ≤ endDate)))), s)

/-- One call against the service, for reasoning about sequences of
operations over the store's lifetime. -/
inductive Op where
  | add (e : ExpenseInput) (now : String)
  | update (id : Nat) (e : ExpenseInput)
  | delete (id : Nat)
  | search (q : String)
  | getAll
  | getById (id : Nat)
  | stats
  | dateRange (a b : String)
  | clearAll
  | reset
deriving Repr, DecidableEq

/-- The service state after one operation (results discarded). -/
def applyOp (s : Service) : Op → Service
  | .add e now => (addExpense s e now).2
  | .update id e => (updateExpense s id e).2
  | .delete id => (deleteExpense s id).2
  | .search q => (searchExpenses s q).2
  | .getAll => (getAllExpenses s).2
  | .getById id => (getExpenseById s id).2
  | .stats => (getExpenseStats s).2
  | .dateRange a b => (getExpensesByDateRange s a b).2
  | .clearAll => (clearAllData s).2
  | .reset => (resetDatabase s).2

/-- The service state after a sequence of operations. -/
def run (s : Service) : List Op → Service
  | [] => s
  | op :: ops => run (applyOp s op) ops

/-- The ids returned by the successful `addExpense` calls of a run, in
call order. -/
def addedIds (s : Service) : List Op → List Nat
  | [] => []
  | .add e now :: ops =>
      match (addExpense s e now).1 with
      | .ok i => i :: addedIds (applyOp s (.add e now)) ops
      | .error _ => addedIds (applyOp s (.add e now)) ops
  | op :: ops => addedIds (applyOp s op) ops

/-- Outcome environment for the schema-repair step: whether `PRAGMA
table_info` already shows `created_at`, whether the in-place
`ALTER TABLE`/backfill path succeeds, and whether the table-reconstruction
fallback succeeds. -/
structure MigrationEnv where
  hasCreatedAt : Bool
  alterSucceeds : Bool
  recreateSucceeds : Bool
deriving Repr, DecidableEq

/-- The `try` body of `ensureCreatedAtColumn`: inspect the column set and,
when `created_at` is missing, run the in-place `ALTER TABLE ... ADD COLUMN`
plus the `UPDATE ... SET created_at = datetime('now')` backfill; fails when
that path fails. -/
def tryAddCreatedAtColumn (env : MigrationEnv) : Except String Unit :=
  if env.hasCreatedAt then .ok ()
  else if env.alterSucceeds then .ok () else .error "alter failed"

/-- Fallback `recreateTableWithCreatedAt`: back up the rows, drop and recreate the
table with the full schema, reinsert; fails when any step fails. -/
def recreateTableWithCreatedAt (env : MigrationEnv) : Except String Unit :=
  if env.recreateSucceeds then .ok () else .error "recreate failed"

/-- Repair step `ensureCreatedAtColumn` with its two nested `try`/`catch` blocks: a
failure of the in-place path is caught and answered by attempting
`recreateTableWithCreatedAt`, whose own failure is caught, logged and not
rethrown ("Don't throw here as this is a migration step"). Returns the
overall result plus whether the reconstruction fallback was attempted. -/
def ensureCreatedAtColumn (env : MigrationEnv) : Except String Unit × Bool :=
  match tryAddCreatedAtColumn env with
  | .ok _ => (.ok (), false)
  | .error _ =>
      match recreateTableWithCreatedAt env with
      | .ok _ => (.ok (), true)
      | .error _ => (.ok (), true)

/-- Queries containing no `LIKE` wildcard metacharacter (`%` or `_`). -/
def noWild (q : String) : Prop := ∀ c ∈ q.data, c ≠ '%' ∧ c ≠ '_'

instance (q : String) : Decidable (noWild q) := by
  unfold noWild; infer_instance

/-- Spec-side definition, following the spec's words: `q` occurs in `s` as a
case-insensitive substring (ASCII case folding, as in SQLite's `LIKE`). -/
def containsCI (q s : String) : Prop :=
  q.data.map Char.toLower <:+: s.data.map Char.toLower

instance (q s : String) : Decidable (containsCI q s) := by
  unfold containsCI; infer_instance

/-- Spec-side definition, following the spec's words: the record's `title`,
`description`, or `category` contains `q` case-insensitively (logical OR
across the three fields). -/
def specMatch (q : String) (r : Expense) : Prop :=
  containsCI q r.title ∨ containsCI q r.description ∨ containsCI q r.category

instance (q : String) (r : Expense) : Decidable (specMatch q r) := by
  unfold specMatch; infer_instance

/-! ## Theorems -/

/-- C7: every Expense Store operation (add, getAll, getById, update, delete,
search, stats, date-range, clear, reset) invoked before `initializeDatabase`
has set the handle fails with the uninitialized-store error and leaves the
service state unchanged. -/
theorem uninitialized_ops_fail_unchanged (e x : ExpenseInput) (now : String)
    (i uid : Nat) (q a b : String) :
    addExpense ⟨none⟩ e now = (.error .notInitialized, ⟨none⟩) ∧
    getAllExpenses ⟨none⟩ = (.error .notInitialized, ⟨none⟩) ∧
    getExpenseById ⟨none⟩ i = (.error .notInitialized, ⟨none⟩) ∧
    updateExpense ⟨none⟩ uid x = (.error .notInitialized, ⟨none⟩) ∧
    deleteExpense ⟨none⟩ i = (.error .notInitialized, ⟨none⟩) ∧
    searchExpenses ⟨none⟩ q = (.error .notInitialized, ⟨none⟩) ∧
    getExpenseStats ⟨none⟩ = (.error .notInitialized, ⟨none⟩) ∧
    getExpensesByDateRange ⟨none⟩ a b = (.error .notInitialized, ⟨none⟩) ∧
    clearAllData ⟨none⟩ = (.error .notInitialized, ⟨none⟩) ∧
    resetDatabase ⟨none⟩ = (.error .notInitialized, ⟨none⟩) :=
  ⟨rfl, rfl, rfl, rfl, rfl, rfl, rfl, rfl, rfl, rfl⟩

/-- C6: on an initialized store, `deleteExpense id` succeeds whether or not
the id exists, and `getExpenseById id` afterwards returns the explicit
not-found result (`none`), not an error. -/
theorem delete_then_getById_none (d : DBState) (id : Nat) :
    (deleteExpense ⟨some d⟩ id).1 = .ok () ∧
    (getExpenseById (deleteExpense ⟨some d⟩ id).2 id).1 = .ok none := by
  refine ⟨rfl, ?_⟩
  show Except.ok (List.find? _ _) = Except.ok none
  congr 1
  rw [List.find?_eq_none]
  intro r hr
  have := (List.mem_filter.mp hr).2
  simpa using this

/-- C2: for every store state (in particular every state reachable by any
sequence of operations, in any insertion order), `getAllExpenses` returns
all stored records, sorted by `date` descending with ties on `date` broken
by `id` descending. -/
theorem getAll_sorted_perm (d : DBState) :
    ∃ l, (getAllExpenses ⟨some d⟩).1 = .ok l ∧ l.Perm d.rows ∧
      l.Sorted dateIdDesc :=
  ⟨_, rfl, List.perm_insertionSort _ _, List.sorted_insertionSort _ _⟩

/-- Looking up the freshly inserted id finds the new row: all pre-existing
rows have ids bounded by the autoincrement sequence. -/
theorem find?_new_row (rows : List Expense) (seq : Nat) (r : Expense)
    (hinv : ∀ x ∈ rows, x.id ≤ seq) (hr : r.id = seq + 1) :
    (rows ++ [r]).find? (fun x => x.id == seq + 1) = some r := by
  rw [List.find?_append]
  have h1 : rows.find? (fun x => x.id == seq + 1) = none := by
    rw [List.find?_eq_none]
    intro x hx
    have := hinv x hx
    simp only [beq_iff_eq]
    omega
  rw [h1]
  simp [List.find?, hr]

/-- The per-row `UPDATE` effect never touches the `id` column. -/
theorem applyUpdate_id (uid : Nat) (x : ExpenseInput) (r : Expense) :
    (applyUpdate uid x r).id = r.id := by
  unfold applyUpdate; split <;> rfl

/-- Auxiliary add/get round trip, shared by several results below. -/
theorem getById_after_add (d : DBState) (e : ExpenseInput) (now : String)
    (hinv : ∀ r ∈ d.rows, r.id ≤ d.seq) :
    (addExpense ⟨some d⟩ e now).1 = .ok (d.seq + 1) ∧
    (getExpenseById (addExpense ⟨some d⟩ e now).2 (d.seq + 1)).1 =
      .ok (some ⟨d.seq + 1, e.title, e.amount, e.category, e.date,
                 e.description.getD "", some now⟩) := by
  refine ⟨rfl, ?_⟩
  simp only [addExpense, getExpenseById]
  rw [find?_new_row d.rows d.seq _ hinv rfl]

/-- C1 (amended): on an initialized store whose rows all have ids bounded by
the autoincrement sequence, `addExpense` returns the fresh id and
`getExpenseById` on that id yields a record whose `title`, `amount`,
`category` and `date` equal the input's, whose `description` equals the
input's when present and `""` when absent, with `id` equal to the returned
id and a non-null `created_at` assigned by the store. -/
theorem add_then_getById (d : DBState) (e : ExpenseInput) (now : String)
    (hinv : ∀ r ∈ d.rows, r.id ≤ d.seq) :
    (addExpense ⟨some d⟩ e now).1 = .ok (d.seq + 1) ∧
    (getExpenseById (addExpense ⟨some d⟩ e now).2 (d.seq + 1)).1 =
      .ok (some ⟨d.seq + 1, e.title, e.amount, e.category, e.date,
                 e.description.getD "", some now⟩) :=
  getById_after_add d e now hinv

/-- C1 (counterexample to the claim as stated): adding an expense whose
optional description is absent stores `""`, so the retrieved record's
description is `some ""`, not the input's absent description. -/
theorem add_then_getById_counterexample :
    (addExpense ⟨some ⟨[], 0⟩⟩ ⟨"Lunch", 5, "Food", "2025-08-18", none⟩
        "2025-08-18 12:00:00").1 = .ok 1 ∧
    (getExpenseById (addExpense ⟨some ⟨[], 0⟩⟩
        ⟨"Lunch", 5, "Food", "2025-08-18", none⟩ "2025-08-18 12:00:00").2 1).1 =
      .ok (some ⟨1, "Lunch", 5, "Food", "2025-08-18", "",
                 some "2025-08-18 12:00:00"⟩) ∧
    (⟨"Lunch", 5, "Food", "2025-08-18", none⟩ : ExpenseInput).description ≠
      some "" := by
  refine ⟨rfl, ?_, by decide⟩
  decide

/-- Witness for `add_then_getById` at a concrete input. -/
theorem add_then_getById_witness :
    (addExpense ⟨some ⟨[], 0⟩⟩ ⟨"Lunch", 5, "Food", "2025-08-18", some "desc"⟩
        "2025-08-18 12:00:00").1 = .ok 1 ∧
    (getExpenseById (addExpense ⟨some ⟨[], 0⟩⟩
        ⟨"Lunch", 5, "Food", "2025-08-18", some "desc"⟩
        "2025-08-18 12:00:00").2 1).1 =
      .ok (some ⟨1, "Lunch", 5, "Food", "2025-08-18", "desc",
                 some "2025-08-18 12:00:00"⟩) :=
  add_then_getById ⟨[], 0⟩ ⟨"Lunch", 5, "Food", "2025-08-18", some "desc"⟩
    "2025-08-18 12:00:00" (fun _ hr => nomatch hr)

/-- C5 (amended): on an initialized store, if `getExpenseById uid` finds a
record `r0`, then `updateExpense uid x` followed by `getExpenseById uid`
returns `x`'s mutable fields (with `x`'s absent description stored as `""`)
and the original `id` and `created_at` unchanged; if `getExpenseById uid`
finds nothing, `updateExpense uid x` silently leaves the whole store state
unchanged. -/
theorem getById_after_update (d : DBState) (uid : Nat) (x : ExpenseInput)
    (found : Option Expense)
    (hfound : (getExpenseById ⟨some d⟩ uid).1 = .ok found) :
    match found with
    | some r0 =>
        (getExpenseById (updateExpense ⟨some d⟩ uid x).2 uid).1 =
          .ok (some ⟨r0.id, x.title, x.amount, x.category, x.date,
                     x.description.getD "", r0.created_at⟩)
    | none => updateExpense ⟨some d⟩ uid x = (.ok (), ⟨some d⟩) := by
  have hf : d.rows.find? (fun r => r.id == uid) = found := by
    simp only [getExpenseById] at hfound
    exact Except.ok.inj hfound
  cases found with
  | none =>
      show updateExpense ⟨some d⟩ uid x = (.ok (), ⟨some d⟩)
      have hid : ∀ r ∈ d.rows, applyUpdate uid x r = r := by
        intro r hr
        have := List.find?_eq_none.mp hf r hr
        unfold applyUpdate
        rw [if_neg (by simpa using this)]
      simp only [updateExpense, List.map_congr_left hid, List.map_id']
  | some r0 =>
      have hp := List.find?_some hf
      simp only at hp
      simp only [updateExpense, getExpenseById, List.find?_map]
      have hcomp : ((fun r : Expense => r.id == uid) ∘ applyUpdate uid x) =
          (fun r : Expense => r.id == uid) := by
        funext r
        simp [Function.comp, applyUpdate_id]
      rw [hcomp, hf]
      show Except.ok (some (applyUpdate uid x r0)) = _
      unfold applyUpdate
      rw [if_pos hp]

/-- C5 (amended): on an initialized store, if `getExpenseById uid` finds a
record `r0`, then `updateExpense uid x` followed by `getExpenseById uid`
returns `x`'s mutable fields (with `x`'s absent description stored as `""`)
and the original `id` and `created_at` unchanged; if `getExpenseById uid`
finds nothing, `updateExpense uid x` silently leaves the whole store state
unchanged. -/
theorem update_then_getById (d : DBState) (uid : Nat) (x : ExpenseInput)
    (found : Option Expense)
    (hfound : (getExpenseById ⟨some d⟩ uid).1 = .ok found) :
    match found with
    | some r0 =>
        (getExpenseById (updateExpense ⟨some d⟩ uid x).2 uid).1 =
          .ok (some ⟨r0.id, x.title, x.amount, x.category, x.date,
                     x.description.getD "", r0.created_at⟩)
    | none => updateExpense ⟨some d⟩ uid x = (.ok (), ⟨some d⟩) :=
  getById_after_update d uid x found hfound

/-- C5 (counterexample to the claim as stated): updating with an input whose
optional description is absent stores `""`, so the retrieved record does not
carry the input's (absent) description. -/
theorem update_then_getById_counterexample :
    (getExpenseById
        (updateExpense ⟨some ⟨[⟨1, "A", 5, "c", "2025-01-01", "orig", some "T"⟩], 1⟩⟩
          1 ⟨"B", 6, "c2", "2025-01-02", none⟩).2 1).1 =
      .ok (some ⟨1, "B", 6, "c2", "2025-01-02", "", some "T"⟩) ∧
    (⟨"B", 6, "c2", "2025-01-02", none⟩ : ExpenseInput).description ≠ some "" := by
  refine ⟨?_, by decide⟩
  decide

/-- Witness for `update_then_getById` at a concrete input (existing id). -/
theorem update_then_getById_witness :
    (getExpenseById
        (updateExpense ⟨some ⟨[⟨1, "A", 5, "c", "2025-01-01", "orig", some "T"⟩], 1⟩⟩
          1 ⟨"B", 6, "c2", "2025-01-02", some "nd"⟩).2 1).1 =
      .ok (some ⟨1, "B", 6, "c2", "2025-01-02", "nd", some "T"⟩) :=
  update_then_getById ⟨[⟨1, "A", 5, "c", "2025-01-01", "orig", some "T"⟩], 1⟩
    1 ⟨"B", 6, "c2", "2025-01-02", some "nd"⟩
    (some ⟨1, "A", 5, "c", "2025-01-01", "orig", some "T"⟩) rfl

/-- C10: when the optional description is absent in the input, both
`addExpense` and `updateExpense` persist it as the empty string: the added
record is retrieved by `getExpenseById` with `description = ""` and appears
in `getAllExpenses` with `description = ""`, and an updated record is
retrieved with `description = ""`. -/
theorem absent_description_stored_empty (d : DBState) (e x : ExpenseInput)
    (now : String) (uid : Nat) (r0 : Expense)
    (hinv : ∀ r ∈ d.rows, r.id ≤ d.seq)
    (he : e.description = none) (hx : x.description = none)
    (hfound : (getExpenseById ⟨some d⟩ uid).1 = .ok (some r0)) :
    (getExpenseById (addExpense ⟨some d⟩ e now).2 (d.seq + 1)).1 =
      .ok (some ⟨d.seq + 1, e.title, e.amount, e.category, e.date, "",
                 some now⟩) ∧
    (∃ l, (getAllExpenses (addExpense ⟨some d⟩ e now).2).1 = .ok l ∧
      (⟨d.seq + 1, e.title, e.amount, e.category, e.date, "", some now⟩ :
        Expense) ∈ l) ∧
    (getExpenseById (updateExpense ⟨some d⟩ uid x).2 uid).1 =
      .ok (some ⟨r0.id, x.title, x.amount, x.category, x.date, "",
                 r0.created_at⟩) := by
  refine ⟨?_, ?_, ?_⟩
  · have h := (getById_after_add d e now hinv).2
    rwa [he] at h
  · refine ⟨_, rfl, ?_⟩
    simp only [addExpense, getAllExpenses, he, Option.getD_none]
    rw [List.mem_insertionSort]
    exact List.mem_append_right _ (List.mem_singleton.mpr rfl)
  · have h := getById_after_update d uid x (some r0) hfound
    simp only at h
    rwa [hx] at h

/-- Witness for `absent_description_stored_empty` at a concrete input. -/
theorem absent_description_witness :
    (getExpenseById
        (addExpense ⟨some ⟨[⟨1, "A", 5, "c", "2025-01-01", "o", some "T"⟩], 1⟩⟩
          ⟨"E", 7, "k", "2025-02-02", none⟩ "T2").2 2).1 =
      .ok (some ⟨2, "E", 7, "k", "2025-02-02", "", some "T2"⟩) ∧
    (∃ l, (getAllExpenses
        (addExpense ⟨some ⟨[⟨1, "A", 5, "c", "2025-01-01", "o", some "T"⟩], 1⟩⟩
          ⟨"E", 7, "k", "2025-02-02", none⟩ "T2").2).1 = .ok l ∧
      (⟨2, "E", 7, "k", "2025-02-02", "", some "T2"⟩ : Expense) ∈ l) ∧
    (getExpenseById
        (updateExpense ⟨some ⟨[⟨1, "A", 5, "c", "2025-01-01", "o", some "T"⟩], 1⟩⟩
          1 ⟨"B", 6, "c2", "2025-01-02", none⟩).2 1).1 =
      .ok (some ⟨1, "B", 6, "c2", "2025-01-02", "", some "T"⟩) :=
  absent_description_stored_empty
    ⟨[⟨1, "A", 5, "c", "2025-01-01", "o", some "T"⟩], 1⟩
    ⟨"E", 7, "k", "2025-02-02", none⟩ ⟨"B", 6, "c2", "2025-01-02", none⟩
    "T2" 1 ⟨1, "A", 5, "c", "2025-01-01", "o", some "T"⟩
    (by intro r hr; rw [List.mem_singleton] at hr; subst hr; decide)
    rfl rfl rfl

theorem likeMatch_nil (s : List Char) : likeMatch [] s = s.isEmpty := rfl

theorem likeMatch_pct (ps s : List Char) :
    likeMatch ('%' :: ps) s = s.tails.any (fun t => likeMatch ps t) := by
  simp [likeMatch]

theorem likeMatch_lit_nil (p : Char) (ps : List Char) (hp : p ≠ '%') :
    likeMatch (p :: ps) [] = false := by
  simp [likeMatch, hp]

theorem likeMatch_lit_cons (p c : Char) (ps s : List Char) (hp : p ≠ '%')
    (hu : p ≠ '_') :
    likeMatch (p :: ps) (c :: s) = (p.toLower == c.toLower && likeMatch ps s) := by
  simp [likeMatch, hp, hu]

/-- A wildcard-free pattern followed by a final `%` matches exactly the
strings that start (after ASCII case folding) with the pattern. -/
theorem likeMatch_append_pct (q : List Char)
    (hq : ∀ c ∈ q, c ≠ '%' ∧ c ≠ '_') (s : List Char) :
    likeMatch (q ++ ['%']) s = true ↔
      q.map Char.toLower <+: s.map Char.toLower := by
  induction q generalizing s with
  | nil =>
      simp only [List.nil_append, List.map_nil]
      constructor
      · intro _
        exact List.nil_prefix
      · intro _
        rw [likeMatch_pct, List.any_eq_true]
        exact ⟨[], (List.mem_tails _ _).mpr List.nil_suffix, rfl⟩
  | cons p q ih =>
      obtain ⟨hp, hu⟩ := hq p (List.mem_cons_self p q)
      have hq' : ∀ c ∈ q, c ≠ '%' ∧ c ≠ '_' :=
        fun c hc => hq c (List.mem_cons_of_mem p hc)
      cases s with
      | nil =>
          rw [List.cons_append, likeMatch_lit_nil _ _ hp]
          simp
      | cons c s' =>
          rw [List.cons_append, likeMatch_lit_cons _ _ _ _ hp hu]
          simp only [List.map_cons, List.cons_prefix_cons, Bool.and_eq_true,
            beq_iff_eq, ih hq']

/-- On wildcard-free queries the SQL `LIKE '%q%'` filter is exactly the
case-insensitive-substring predicate of the spec. -/
theorem likeMatches_iff_containsCI (q s : String) (hq : noWild q) :
    likeMatches q s = true ↔ containsCI q s := by
  unfold likeMatches containsCI
  rw [likeMatch_pct, List.any_eq_true]
  constructor
  · rintro ⟨t, ht, hm⟩
    rw [List.mem_tails] at ht
    have hpre := (likeMatch_append_pct q.data hq t).mp hm
    exact List.infix_iff_prefix_suffix.mpr
      ⟨t.map Char.toLower, hpre, ht.map Char.toLower⟩
  · intro h
    obtain ⟨t', hpre, hsuf⟩ := List.infix_iff_prefix_suffix.mp h
    rw [List.suffix_iff_eq_drop] at hsuf
    set n := (s.data.map Char.toLower).length - t'.length with hn
    refine ⟨s.data.drop n, (List.mem_tails _ _).mpr (List.drop_suffix n s.data), ?_⟩
    rw [likeMatch_append_pct q.data hq]
    rw [List.map_drop, ← hsuf] at *
    exact hpre

/-- On wildcard-free queries the whole `WHERE ... LIKE ... OR ...` row
filter agrees with the spec's three-field predicate. -/
theorem rowMatches_eq_specMatch (q : String) (r : Expense) (hq : noWild q) :
    rowMatches q r = decide (specMatch q r) := by
  have hiff : rowMatches q r = true ↔ specMatch q r := by
    unfold rowMatches specMatch
    simp only [Bool.or_eq_true, likeMatches_iff_containsCI _ _ hq, or_assoc]
  by_cases h : specMatch q r
  · rw [hiff.mpr h, decide_eq_true h]
  · have hfalse : rowMatches q r = false :=
      Bool.eq_false_iff.mpr (fun hh => h (hiff.mp hh))
    rw [hfalse, decide_eq_false h]

/-- C3 (amended): for every wildcard-free query string `q` and every store
state, `searchExpenses q` returns exactly the records whose `title`,
`description`, or `category` contains `q` as a case-insensitive substring
(logical OR across the three fields), ordered by `date` descending. -/
theorem search_filters_and_sorts (d : DBState) (q : String) (hq : noWild q) :
    ∃ l, (searchExpenses ⟨some d⟩ q).1 = .ok l ∧
      l.Perm (d.rows.filter (fun r => decide (specMatch q r))) ∧
      l.Sorted dateDesc := by
  refine ⟨_, rfl, ?_, List.sorted_insertionSort _ _⟩
  have h1 : d.rows.filter (rowMatches q) =
      d.rows.filter (fun r => decide (specMatch q r)) :=
    List.filter_congr (fun r _ => rowMatches_eq_specMatch q r hq)
  rw [← h1]
  exact List.perm_insertionSort _ _

/-- C3 (counterexample to the claim as stated): the query is pasted into a
`LIKE` pattern, so its wildcards are interpreted: searching for `"%"`
returns a record that does not contain the character `%` in any field. -/
theorem search_wildcard_counterexample :
    (searchExpenses ⟨some ⟨[⟨1, "ab", 5, "c", "2025-01-01", "", some "T"⟩], 1⟩⟩
        "%").1 = .ok [⟨1, "ab", 5, "c", "2025-01-01", "", some "T"⟩] ∧
    ¬ specMatch "%" ⟨1, "ab", 5, "c", "2025-01-01", "", some "T"⟩ := by
  exact ⟨by decide, by decide⟩

/-- Witness for `search_filters_and_sorts` at a concrete store and query. -/
theorem search_witness :
    ∃ l, (searchExpenses ⟨some ⟨[⟨1, "Grocery", 5, "Food", "2025-08-18", "", some "T"⟩,
            ⟨2, "Gas", 6, "Transport", "2025-08-17", "fuel", some "T"⟩], 2⟩⟩
        "gro").1 = .ok l ∧
      l.Perm (([⟨1, "Grocery", 5, "Food", "2025-08-18", "", some "T"⟩,
               ⟨2, "Gas", 6, "Transport", "2025-08-17", "fuel", some "T"⟩] :
          List Expense).filter
        (fun r => decide (specMatch "gro" r))) ∧
      l.Sorted dateDesc :=
  search_filters_and_sorts
    ⟨[⟨1, "Grocery", 5, "Food", "2025-08-18", "", some "T"⟩,
      ⟨2, "Gas", 6, "Transport", "2025-08-17", "fuel", some "T"⟩], 2⟩
    "gro" (by decide)

/-- Operations on an uninitialized service leave it uninitialized. -/
theorem applyOp_none (op : Op) : applyOp ⟨none⟩ op = ⟨none⟩ := by
  cases op <;> rfl

/-- On an uninitialized service no ids are handed out at the first step. -/
theorem addedIds_none_cons (op : Op) (ops : List Op) :
    addedIds ⟨none⟩ (op :: ops) = addedIds ⟨none⟩ ops := by
  cases op <;> simp [addedIds, addExpense, applyOp_none]

/-- Every operation except `reset` keeps the service initialized and never
decreases the autoincrement sequence. -/
theorem applyOp_seq_mono (d : DBState) (op : Op) (hop : op ≠ Op.reset) :
    ∃ d', applyOp ⟨some d⟩ op = ⟨some d'⟩ ∧ d.seq ≤ d'.seq := by
  cases op <;>
    first
      | exact absurd rfl hop
      | exact ⟨_, rfl, Nat.le_succ _⟩
      | exact ⟨_, rfl, Nat.le_refl _⟩

/-- Along any reset-free run, the ids handed out by `addExpense` form a
strictly increasing chain, all above the starting sequence value. -/
theorem addedIds_chain (ops : List Op) :
    ∀ (s : Service), Op.reset ∉ ops →
      List.Chain' (· < ·) (addedIds s ops) ∧
      ∀ i ∈ addedIds s ops, ∀ d, s.db = some d → d.seq < i := by
  induction ops with
  | nil => exact fun s _ => ⟨List.chain'_nil, fun i hi => nomatch hi⟩
  | cons op ops ih =>
      intro s hnr
      have hnr' : Op.reset ∉ ops := fun h => hnr (List.mem_cons_of_mem _ h)
      have hop : op ≠ Op.reset := fun h => hnr (h ▸ List.mem_cons_self op ops)
      obtain ⟨db⟩ := s
      cases db with
      | none =>
          rw [addedIds_none_cons]
          refine ⟨(ih ⟨none⟩ hnr').1, ?_⟩
          intro i _ d hd
          exact absurd hd (by simp)
      | some d =>
          cases op with
          | add e now =>
              have hstep : applyOp ⟨some d⟩ (.add e now) =
                  ⟨some ⟨d.rows ++ [⟨d.seq + 1, e.title, e.amount, e.category,
                    e.date, e.description.getD "", some now⟩], d.seq + 1⟩⟩ := rfl
              have heq : addedIds ⟨some d⟩ (.add e now :: ops) =
                  (d.seq + 1) :: addedIds (applyOp ⟨some d⟩ (.add e now)) ops := by
                simp [addedIds, addExpense]
              obtain ⟨hchain, hbound⟩ := ih (applyOp ⟨some d⟩ (.add e now)) hnr'
              have hgt : ∀ i ∈ addedIds (applyOp ⟨some d⟩ (.add e now)) ops,
                  d.seq + 1 < i := by
                intro i hi
                exact hbound i hi _ (by rw [hstep])
              constructor
              · rw [heq]
                rw [List.chain'_cons']
                exact ⟨fun y hy => hgt y (List.mem_of_mem_head? hy), hchain⟩
              · rw [heq]
                intro i hi d0 hd0
                have hd0' : d = d0 := by
                  simpa using hd0
                subst hd0'
                rcases List.mem_cons.mp hi with h | h
                · omega
                · have := hgt i h
                  omega
          | reset => exact absurd rfl hop
          | _ =>
              simp only [addedIds]
              obtain ⟨d', hstep, hle⟩ := applyOp_seq_mono d _ hop
              rw [hstep]
              obtain ⟨hchain, hbound⟩ := ih ⟨some d'⟩ hnr'
              refine ⟨hchain, ?_⟩
              intro i hi d0 hd0
              have hd0' : d = d0 := by simpa using hd0
              subst hd0'
              have := hbound i hi d' rfl
              omega

/-- C8 (amended): across any reset-free sequence of operations — including
any number of `deleteExpense` and `clearAllData` calls — the ids assigned
by `addExpense` are strictly increasing, hence pairwise distinct and never
reassigned; `resetDatabase` drops and recreates the table, which restarts
the id sequence. -/
theorem added_ids_monotone_no_reset (s : Service) (ops : List Op)
    (hnr : Op.reset ∉ ops) :
    List.Chain' (· < ·) (addedIds s ops) ∧
    List.Pairwise (· < ·) (addedIds s ops) :=
  have h := (addedIds_chain ops s hnr).1
  ⟨h, List.chain'_iff_pairwise.mp h⟩

/-- C8 (counterexample to the claim as stated): after `resetDatabase` the
`AUTOINCREMENT` sequence starts over (`DROP TABLE` removes the
`sqlite_sequence` entry), so id 1 is assigned twice — the second time to a
different record. -/
theorem id_reused_after_reset_counterexample :
    addedIds ⟨some ⟨[], 0⟩⟩
      [.add ⟨"A", 1, "c", "2025-01-01", none⟩ "t1", .reset,
       .add ⟨"B", 2, "c", "2025-01-02", none⟩ "t2"] = [1, 1] ∧
    (getExpenseById (run ⟨some ⟨[], 0⟩⟩
        [.add ⟨"A", 1, "c", "2025-01-01", none⟩ "t1"]) 1).1 =
      .ok (some ⟨1, "A", 1, "c", "2025-01-01", "", some "t1"⟩) ∧
    (getExpenseById (run ⟨some ⟨[], 0⟩⟩
        [.add ⟨"A", 1, "c", "2025-01-01", none⟩ "t1", .reset,
         .add ⟨"B", 2, "c", "2025-01-02", none⟩ "t2"]) 1).1 =
      .ok (some ⟨1, "B", 2, "c", "2025-01-02", "", some "t2"⟩) ∧
    ¬ List.Chain' (· < ·) [1, 1] := by
  refine ⟨by decide, by decide, by decide, ?_⟩
  intro h
  exact absurd (List.chain'_cons.mp h).1 (lt_irrefl 1)

/-- Witness for `added_ids_monotone_no_reset`: a run with deletes and a
`clearAllData` still hands out the strictly increasing ids `[1, 2, 3]`. -/
theorem added_ids_monotone_witness :
    List.Chain' (· < ·) (addedIds ⟨some ⟨[], 0⟩⟩
      [.add ⟨"A", 1, "c", "2025-01-01", none⟩ "t1", .delete 1,
       .add ⟨"B", 2, "c", "2025-01-02", none⟩ "t2", .clearAll,
       .add ⟨"C", 3, "c", "2025-01-03", none⟩ "t3"]) ∧
    List.Pairwise (· < ·) (addedIds ⟨some ⟨[], 0⟩⟩
      [.add ⟨"A", 1, "c", "2025-01-01", none⟩ "t1", .delete 1,
       .add ⟨"B", 2, "c", "2025-01-02", none⟩ "t2", .clearAll,
       .add ⟨"C", 3, "c", "2025-01-03", none⟩ "t3"]) :=
  added_ids_monotone_no_reset ⟨some ⟨[], 0⟩⟩
    [.add ⟨"A", 1, "c", "2025-01-01", none⟩ "t1", .delete 1,
     .add ⟨"B", 2, "c", "2025-01-02", none⟩ "t2", .clearAll,
     .add ⟨"C", 3, "c", "2025-01-03", none⟩ "t3"] (by decide)

/-- C9: the `created_at` schema-repair step never throws to its caller:
whatever the outcomes of the in-place column addition and of the
table-reconstruction fallback, `ensureCreatedAtColumn` returns normally,
and it attempts the reconstruction fallback exactly when the in-place path
fails. -/
theorem ensure_created_at_never_throws (env : MigrationEnv) :
    (ensureCreatedAtColumn env).1 = .ok () ∧
    (ensureCreatedAtColumn env).2 = !(tryAddCreatedAtColumn env).isOk := by
  unfold ensureCreatedAtColumn
  cases h : tryAddCreatedAtColumn env with
  | ok a => simp [h, Except.isOk, Except.toBool]
  | error e =>
      cases h2 : recreateTableWithCreatedAt env with
      | ok a => simp [h, h2, Except.isOk, Except.toBool]
      | error e2 => simp [h, h2, Except.isOk, Except.toBool]

end ExpenseTracker
